import Mathlib

/-!
Verification development for the WW1-Skies arcade flight simulation.

The definitions below are a shallow embedding of the simulation core:
the projectile pools with swept collision detection (Airplane component),
the enemy and ally projectile updates (EnemyPlane / AllyPlane components),
the terrain height field (Airplane / Terrain components), the player
speed-inertia update (Airplane component) and the combat coordinator's
hit and crash handlers (GameCanvas component).

Coordinates and scalar physics quantities are modelled over `ℚ`
(every JavaScript number arising in the claims is rational); the terrain
height field, which uses `Math.sin`/`Math.cos`, is modelled over `ℝ`.
-/

/-- 3D vector with rational components, mirroring THREE.Vector3 as used by
the simulation code. -/
structure Vec3 where
  x : ℚ
  y : ℚ
  z : ℚ
deriving DecidableEq, Repr

def Vec3.add (a b : Vec3) : Vec3 := ⟨a.x + b.x, a.y + b.y, a.z + b.z⟩

def Vec3.sub (a b : Vec3) : Vec3 := ⟨a.x - b.x, a.y - b.y, a.z - b.z⟩

def Vec3.smul (c : ℚ) (a : Vec3) : Vec3 := ⟨c * a.x, c * a.y, c * a.z⟩

/-- THREE.Vector3.addScaledVector: `a + s • v`. -/
def Vec3.addScaled (a v : Vec3) (s : ℚ) : Vec3 := a.add (Vec3.smul s v)

def Vec3.dot (a b : Vec3) : ℚ := a.x * b.x + a.y * b.y + a.z * b.z

def Vec3.lengthSq (a : Vec3) : ℚ := a.dot a

/-- THREE.Vector3.distanceToSquared. -/
def Vec3.distanceToSquared (a b : Vec3) : ℚ := (a.sub b).lengthSq

/-- Quaternion with rational components, mirroring THREE.Quaternion. -/
structure Quat where
  x : ℚ
  y : ℚ
  z : ℚ
  w : ℚ
deriving DecidableEq, Repr

/-- THREE.Vector3.applyQuaternion (rotation of a vector by a quaternion),
translated from the three.js implementation. -/
def Vec3.applyQuaternion (v : Vec3) (q : Quat) : Vec3 :=
  let tx := 2 * (q.y * v.z - q.z * v.y)
  let ty := 2 * (q.z * v.x - q.x * v.z)
  let tz := 2 * (q.x * v.y - q.y * v.x)
  ⟨ v.x + q.w * tx + (q.y * tz - q.z * ty),
    v.y + q.w * ty + (q.z * tx - q.x * tz),
    v.z + q.w * tz + (q.x * ty - q.y * tx) ⟩

/-- Player projectile slot (Airplane component `Bullet` interface):
`{active, position, prevPosition, velocity, life}`.  The `id` field of the
source is the pool index, used only for instanced rendering, and is omitted. -/
structure Bullet where
  active : Bool
  position : Vec3
  prevPosition : Vec3
  velocity : Vec3
  life : ℚ
deriving DecidableEq, Repr

/-- Enemy / ally projectile slot (EnemyPlane and AllyPlane components):
`{active, position, velocity, life}` — these pools have no `prevPosition`. -/
structure EBullet where
  active : Bool
  position : Vec3
  velocity : Vec3
  life : ℚ
deriving DecidableEq, Repr

/-- Player projectile pool capacity (Airplane component). -/
def PLAYER_MAX_BULLETS : ℕ := 100

/-- Enemy projectile pool capacity (EnemyPlane component). -/
def ENEMY_MAX_BULLETS : ℕ := 20

/-- Ally projectile pool capacity (AllyPlane component). -/
def ALLY_MAX_BULLETS : ℕ := 20

/-- The JavaScript firing pattern shared by all three emitters:
`pool.find(b => !b.active)` followed by mutation of the found slot.
Functionally: replace the first inactive slot by its armed version;
if every slot is active, the pool is returned unchanged. -/
def armFirstFree {α : Type} (isActive : α → Bool) (upd : α → α) : List α → List α
  | [] => []
  | b :: rest =>
      if isActive b then b :: armFirstFree isActive upd rest else upd b :: rest

/-- Airplane component `fireBullet(planePos, planeQuat, planeVelocity, offset)`:
spawn a projectile at the plane position plus a rotated lateral offset, with
velocity = carrier velocity + muzzle velocity (600 units) along the plane's
forward axis; life 2.0 s. -/
def fireBullet (pool : List Bullet) (planePos : Vec3) (planeQuat : Quat)
    (planeVelocity : Vec3) (offset : ℚ) : List Bullet :=
  armFirstFree (fun b => b.active)
    (fun b =>
      let spawnOffset := (Vec3.mk offset 0 (-2)).applyQuaternion planeQuat
      let position := planePos.add spawnOffset
      let muzzleVel := (Vec3.mk 0 0 (-600)).applyQuaternion planeQuat
      { b with
          active := true,
          position := position,
          prevPosition := position,
          velocity := planeVelocity.add muzzleVel,
          life := 2 })
    pool

/-- Enemy difficulty tiers (types.ts `Difficulty`). -/
inductive Difficulty
  | rookie
  | veteran
  | ace
deriving DecidableEq, Repr

/-- EnemyPlane shooting logic: `bulletSpeedBonus = ace ? 250 : 150`. -/
def bulletSpeedBonus (d : Difficulty) : ℚ :=
  match d with
  | Difficulty.ace => 250
  | _ => 150

/-- EnemyPlane shooting logic: `spread = ace ? 2 : (rookie ? 12 : 8)`. -/
def bulletSpread (d : Difficulty) : ℚ :=
  match d with
  | Difficulty.ace => 2
  | Difficulty.rookie => 12
  | Difficulty.veteran => 8

/-- EnemyPlane shooting logic (the `bullets.find(b => !b.active)` block):
arm the first free slot with life 1.5, position at the enemy, velocity along
its forward vector scaled by `speed + bulletSpeedBonus`, plus random spread
on x and y; `r1`, `r2` stand for the two `Math.random()` draws. -/
def enemyFireBullet (pool : List EBullet) (enemyPos forward : Vec3)
    (speed : ℚ) (d : Difficulty) (r1 r2 : ℚ) : List EBullet :=
  armFirstFree (fun b => b.active)
    (fun b =>
      let v := Vec3.smul (speed + bulletSpeedBonus d) forward
      { b with
          active := true,
          life := 3/2,
          position := enemyPos,
          velocity := ⟨v.x + (r1 - 1/2) * bulletSpread d,
                       v.y + (r2 - 1/2) * bulletSpread d,
                       v.z⟩ })
    pool

/-- AllyPlane shooting logic (the `bullets.find(b => !b.active)` block):
life 1.5, position at the ally, velocity `forward * (speed + 150)` plus a
fixed ±1 spread on x and y (`(Math.random() - 0.5) * 2`). -/
def allyFireBullet (pool : List EBullet) (allyPos forward : Vec3)
    (speed : ℚ) (r1 r2 : ℚ) : List EBullet :=
  armFirstFree (fun b => b.active)
    (fun b =>
      let v := Vec3.smul (speed + 150) forward
      { b with
          active := true,
          life := 3/2,
          position := allyPos,
          velocity := ⟨v.x + (r1 - 1/2) * 2, v.y + (r2 - 1/2) * 2, v.z⟩ })
    pool

/-- Count of active slots in a projectile pool. -/
def countActive {α : Type} (isActive : α → Bool) (pool : List α) : ℕ :=
  pool.countP isActive

/-- Airplane component speed constants: `MIN_SPEED = 0`. -/
def MIN_SPEED : ℚ := 0

/-- Airplane component speed constants: `MAX_SPEED = 43`. -/
def MAX_SPEED : ℚ := 43

/-- Airplane component speed-inertia update (one tick):
`targetSpeed = throttle * MAX_SPEED`;
`acceleration = throttle > 0 ? 0.08 : 0.03`;
`speed += (targetSpeed - speed) * acceleration * dt`;
`if (speed < MIN_SPEED) speed = MIN_SPEED`. -/
def updateSpeed (throttle speed dt : ℚ) : ℚ :=
  let targetSpeed := throttle * MAX_SPEED
  let acceleration : ℚ := if throttle > 0 then 0.08 else 0.03
  let s := speed + (targetSpeed - speed) * acceleration * dt
  if s < MIN_SPEED then MIN_SPEED else s

/-- Folding the speed update over a sequence of per-tick time deltas with a
fixed throttle (the useFrame loop clamps each delta to at most 0.1 before
this update runs). -/
def runSpeed (throttle s0 : ℚ) (dts : List ℚ) : ℚ :=
  dts.foldl (fun s dt => updateSpeed throttle s dt) s0

/-- Airplane component swept collision test against one target position:
compute the closest point on the segment (`prevPosition` → `position`) to the
target via the clamped projection parameter, and hit when the squared distance
from that point to the target is below 12.  Returns the hit flag together
with the closest point (the `hitPoint` passed to `onEnemyHit`). -/
def sweptHitTest (bStart bEnd enemyPos : Vec3) : Bool × Vec3 :=
  let segmentVec := bEnd.sub bStart
  let segmentLenSq := segmentVec.lengthSq
  let enemyToStart := enemyPos.sub bStart
  let t : ℚ :=
    if segmentLenSq > 0 then
      max 0 (min 1 (enemyToStart.dot segmentVec / segmentLenSq))
    else 0
  let closestPoint := bStart.addScaled segmentVec t
  let distSq := closestPoint.distanceToSquared enemyPos
  (decide (distSq < 12), closestPoint)

/-- Airplane component enemy scan (the `for (let eIdx ...)` loop): targets are
the `enemies` prop paired with their registry entry (`enemyPositionsRef`);
entries absent from the registry are skipped (`if (!enemyPos) continue`);
the first target passing the swept test is hit and the loop breaks. -/
def scanEnemies (bStart bEnd : Vec3) :
    List (ℚ × Option Vec3) → Option (ℚ × Vec3)
  | [] => none
  | (_, none) :: rest => scanEnemies bStart bEnd rest
  | (i, some p) :: rest =>
      let r := sweptHitTest bStart bEnd p
      if r.1 then some (i, r.2) else scanEnemies bStart bEnd rest

/-- Airplane component per-bullet update (the active branch of the
`bulletsRef.current.forEach` body): record previous position, integrate the
position by `velocity * dt`, apply the downward velocity bias
(`velocity.y -= 0.5 * dt`), decrement life; deactivate on `life <= 0` or when
the position falls below the terrain height; otherwise run the swept enemy
scan, and on a hit deactivate and emit the single hit event.  The terrain
height function is passed as a parameter `getH`. -/
def playerBulletStep (getH : ℚ → ℚ → ℚ) (targets : List (ℚ × Option Vec3))
    (dt : ℚ) (b : Bullet) : Bullet × Option (ℚ × Vec3) :=
  if b.active = false then (b, none)
  else
    let prevPosition := b.position
    let position := b.position.addScaled b.velocity dt
    let velocity : Vec3 := ⟨b.velocity.x, b.velocity.y - 0.5 * dt, b.velocity.z⟩
    let life := b.life - dt
    if life ≤ 0 ∨ position.y < getH position.x position.z then
      ({ active := false, position := position, prevPosition := prevPosition,
         velocity := velocity, life := life }, none)
    else
      match scanEnemies prevPosition position targets with
      | some ev =>
          ({ active := false, position := position, prevPosition := prevPosition,
             velocity := velocity, life := life }, some ev)
      | none =>
          ({ active := true, position := position, prevPosition := prevPosition,
             velocity := velocity, life := life }, none)

/-- EnemyPlane per-bullet update (the active branch of the bullet physics
loop): integrate position, decrement life, deactivate and signal
`onHitPlayer` when within distance 5 of the player (`distanceTo < 5` is
modelled as squared distance < 25), then deactivate on `life <= 0`.
No terrain check is performed.  The returned Bool is the hit signal. -/
def enemyBulletStep (playerPos : Vec3) (dt : ℚ) (b : EBullet) :
    EBullet × Bool :=
  if b.active = false then (b, false)
  else
    let position := b.position.addScaled b.velocity dt
    let life := b.life - dt
    let hitPlayer := decide (position.distanceToSquared playerPos < 25)
    let active1 := if hitPlayer then false else b.active
    let active2 := if life ≤ 0 then false else active1
    ({ active := active2, position := position, velocity := b.velocity,
       life := life }, hitPlayer)

/-- AllyPlane per-bullet enemy scan (the `for(const enemy of enemies)` loop):
every target with a registry entry whose squared distance to the bullet
position is below 16 produces a hit event; the loop does not break, so the
flag records whether any hit occurred and all hit events are collected. -/
def allyHitScan (pos : Vec3) :
    List (ℚ × Option Vec3) → Bool × List (ℚ × Vec3)
  | [] => (false, [])
  | (_, none) :: rest => allyHitScan pos rest
  | (i, some p) :: rest =>
      let r := allyHitScan pos rest
      if pos.distanceToSquared p < 16 then (true, (i, p) :: r.2) else r

/-- AllyPlane per-bullet update (the active branch of the bullet physics
loop): integrate position, decrement life, scan every enemy with a point
test at squared threshold 16 (deactivating on any hit), then deactivate on
`life <= 0`.  No terrain check is performed. -/
def allyBulletStep (targets : List (ℚ × Option Vec3)) (dt : ℚ) (b : EBullet) :
    EBullet × List (ℚ × Vec3) :=
  if b.active = false then (b, [])
  else
    let position := b.position.addScaled b.velocity dt
    let life := b.life - dt
    let scan := allyHitScan position targets
    let active1 := if scan.1 then false else b.active
    let active2 := if life ≤ 0 then false else active1
    ({ active := active2, position := position, velocity := b.velocity,
       life := life }, scan.2)

/-- AllyPlane point hit test against an enemy position
(`b.position.distanceToSquared(ePos) < 16`). -/
def allyBulletHitCheck (bPos ePos : Vec3) : Bool :=
  decide (bPos.distanceToSquared ePos < 16)

/-- EnemyPlane point hit test against the player position
(`b.position.distanceTo(playerPos) < 5`, i.e. squared distance < 25). -/
def enemyBulletHitCheck (bPos playerPos : Vec3) : Bool :=
  decide (bPos.distanceToSquared playerPos < 25)

/-- The runway corridor predicate shared (textually) by the Airplane
`getTerrainHeight` and the Terrain mesh generator:
`Math.abs(x) < 200 && z > -1700 && z < 700`. -/
def inRunwayCorridor (x z : ℝ) : Prop := |x| < 200 ∧ -1700 < z ∧ z < 700

/-- Airplane component `getTerrainHeight(x, z)`: 0 inside the runway
corridor; otherwise a sine/cosine wave of amplitude `HEIGHT = 150` with
`SCALE = 400`, clamped at 0 and quantized downward to multiples of
`STEPS = 15` (`Math.floor(Math.max(0, rawHeight) / STEPS) * STEPS`). -/
noncomputable def getTerrainHeight (x z : ℝ) : ℝ :=
  if |x| < 200 ∧ -1700 < z ∧ z < 700 then 0
  else
    ((⌊max 0 ((Real.sin (x / 400) + Real.cos (z / (400 * 0.8))) * 150) / 15⌋ : ℤ) : ℝ) * 15

/-- Terrain component mesh vertex height (the loop over `posAttribute`),
as a function of the plane's local (x, y) coordinates: the PlaneGeometry is
built on its local XY plane, and the loop's corridor test and terraced wave
use the same constants as `getTerrainHeight`.  The rendered mesh is rotated
by `[-Math.PI/2, 0, 0]`, which maps local +y to world -z (see
`terrainMeshGroundHeight` for the height field in ground coordinates). -/
noncomputable def terrainMeshVertexHeight (x y : ℝ) : ℝ :=
  if |x| < 200 ∧ -1700 < y ∧ y < 700 then 0
  else
    ((⌊max 0 ((Real.sin (x / 400) + Real.cos (y / (400 * 0.8))) * 150) / 15⌋ : ℤ) : ℝ) * 15

/-- Terrain mesh height in ground coordinates: the rotation
`[-Math.PI/2, 0, 0]` applied to the mesh maps the plane's local +y axis to
world -z (a point at local (x, y) with height h lands at world (x, h, -y)),
so the mesh elevation above ground point (x, z) is the vertex loop's value
at local coordinates (x, -z). -/
noncomputable def terrainMeshGroundHeight (x z : ℝ) : ℝ :=
  terrainMeshVertexHeight x (-z)

/-- Terrain component tree placement height (the per-tree height
computation inside the cluster loop): the terraced wave with the same
constants, but with no runway-corridor test. -/
noncomputable def treePlacementHeight (tx tz : ℝ) : ℝ :=
  ((⌊max 0 ((Real.sin (tx / 400) + Real.cos (tz / (400 * 0.8))) * 150) / 15⌋ : ℤ) : ℝ) * 15

/-- Enemy record (types.ts `Enemy`): identity, spawn position and health.
The presentation-only `color` field is omitted.  Identities are JavaScript
numbers (respawned enemies get `Date.now() + Math.random()`), modelled as ℚ. -/
structure Enemy where
  id : ℚ
  position : Vec3
  hp : ℤ
  maxHp : ℤ
deriving DecidableEq, Repr

/-- GameScene combat state touched by `handleEnemyHit`: the squadron list,
the score, the live enemy-position registry (`enemyPositionsRef`), and the
transient visual events. -/
structure CombatState where
  enemies : List Enemy
  score : ℤ
  registry : List (ℚ × Vec3)
  hitSparks : List Vec3
  explosions : List Vec3
deriving DecidableEq, Repr

/-- Registry lookup (`enemyPositionsRef.current[id]`), modelled on an
association list keyed by enemy identity. -/
def regLookup (r : List (ℚ × Vec3)) (k : ℚ) : Option Vec3 :=
  match r with
  | [] => none
  | (i, v) :: rest => if i = k then some v else regLookup rest k

/-- Registry removal (`delete enemyPositionsRef.current[id]`). -/
def regErase (r : List (ℚ × Vec3)) (k : ℚ) : List (ℚ × Vec3) :=
  match r with
  | [] => []
  | (i, v) :: rest =>
      if i = k then regErase rest k else (i, v) :: regErase rest k

/-- Registry insertion (`enemyPositionsRef.current[newId] = pos`); on the
association-list model an existing binding for the key is replaced. -/
def regSet (r : List (ℚ × Vec3)) (k : ℚ) (v : Vec3) : List (ℚ × Vec3) :=
  regErase r k ++ [(k, v)]

/-- One step of the GameCanvas `handleEnemyHit` map callback: enemies whose
id differs from the hit id are returned unchanged with no effect; the
matching enemy loses one hit point (emitting a hit spark when a hit point
was supplied) and, at hp ≤ 0, triggers the destruction path: explosion,
score +100 and registry removal (guarded by the registry lookup), then the
replacement enemy (`createNewEnemy`, whose randomness is abstracted into the
`newEnemy` argument) is registered and substituted into the list. -/
def processEnemyHit (id : ℚ) (hitPos : Option Vec3) (newEnemy : Enemy)
    (st : CombatState) (e : Enemy) : Enemy × CombatState :=
  if e.id = id then
    let newHp := e.hp - 1
    let st1 :=
      match hitPos with
      | some hpt => { st with hitSparks := st.hitSparks ++ [hpt] }
      | none => st
    if newHp ≤ 0 then
      let st2 :=
        match regLookup st1.registry id with
        | some explPos =>
            { st1 with
                explosions := st1.explosions ++ [explPos],
                score := st1.score + 100,
                registry := regErase st1.registry id }
        | none => st1
      let st3 := { st2 with registry := regSet st2.registry newEnemy.id newEnemy.position }
      (newEnemy, st3)
    else
      ({ e with hp := newHp }, st1)
  else (e, st)

/-- The `prev.map(...)` traversal of `handleEnemyHit`, threading the
effects on score, registry and transient events through the list. -/
def handleEnemyHitGo (id : ℚ) (hitPos : Option Vec3) (newEnemy : Enemy) :
    List Enemy → CombatState → List Enemy × CombatState
  | [], st => ([], st)
  | e :: rest, st =>
      let r1 := processEnemyHit id hitPos newEnemy st e
      let r2 := handleEnemyHitGo id hitPos newEnemy rest r1.2
      (r1.1 :: r2.1, r2.2)

/-- GameCanvas `handleEnemyHit(id, hitPos)`: map the hit over the squadron
list and commit the resulting effects. -/
def handleEnemyHit (id : ℚ) (hitPos : Option Vec3) (newEnemy : Enemy)
    (st : CombatState) : CombatState :=
  let r := handleEnemyHitGo id hitPos newEnemy st.enemies st
  { r.2 with enemies := r.1 }

/-- GameScene state touched by the player crash path: the dead flag, score,
player health and the explosion effects. -/
structure PlayerState where
  playerDead : Bool
  score : ℤ
  playerHp : ℤ
  explosions : List Vec3
deriving DecidableEq, Repr

/-- GameCanvas `handlePlayerCrash`: a no-op when the player is already dead;
otherwise set the dead flag and spawn an explosion at the player position.
The delayed full mission reset (`setTimeout(onRestart, 3000)`) is the
external reset and is outside this step. -/
def handlePlayerCrash (playerPos : Vec3) (s : PlayerState) : PlayerState :=
  if s.playerDead then s
  else { s with playerDead := true, explosions := s.explosions ++ [playerPos] }

/-- Airplane `handleCrash`: a no-op when already crashed; otherwise set the
local crashed flag and invoke the global crash trigger
(`window.triggerPlayerCrash`, which GameCanvas binds to `handlePlayerCrash`). -/
def handleCrash (crashed : Bool) (playerPos : Vec3) (s : PlayerState) :
    Bool × PlayerState :=
  if crashed then (crashed, s)
  else (true, handlePlayerCrash playerPos s)

/-- Specification-side predicate for the swept test: some point of the
segment from `bStart` to `bEnd` lies within the hit radius of `p`
(squared distance below the threshold 12). -/
def hitsSegment (bStart bEnd p : Vec3) : Prop :=
  ∃ t : ℚ, 0 ≤ t ∧ t ≤ 1 ∧
    (bStart.addScaled (bEnd.sub bStart) t).distanceToSquared p < 12

/-- `IsFirstSweptHit bStart bEnd targets j` states that `j` is the identity
of the first target in iteration order that has a registry entry within the
swept hit radius of the segment. -/
def IsFirstSweptHit (bStart bEnd : Vec3) : List (ℚ × Option Vec3) → ℚ → Prop
  | [], _ => False
  | (_, none) :: rest, j => IsFirstSweptHit bStart bEnd rest j
  | (i, some p) :: rest, j =>
      (hitsSegment bStart bEnd p ∧ i = j) ∨
      (¬ hitsSegment bStart bEnd p ∧ IsFirstSweptHit bStart bEnd rest j)

lemma armFirstFree_length {α : Type} (f : α → Bool) (u : α → α) :
    ∀ l : List α, (armFirstFree f u l).length = l.length := by
  intro l
  induction l with
  | nil => rfl
  | cons b rest ih =>
      simp only [armFirstFree]
      split
      · simp [ih]
      · simp

lemma armFirstFree_of_allActive {α : Type} (f : α → Bool) (u : α → α) :
    ∀ l : List α, (∀ b ∈ l, f b = true) → armFirstFree f u l = l := by
  intro l
  induction l with
  | nil => intro _; rfl
  | cons b rest ih =>
      intro h
      simp only [armFirstFree]
      rw [if_pos (h b (List.mem_cons_self b rest))]
      rw [ih (fun x hx => h x (List.mem_cons_of_mem b hx))]

lemma countActive_le_length {α : Type} (f : α → Bool) (l : List α) :
    countActive f l ≤ l.length :=
  List.countP_le_length f

lemma allActive_of_countActive_eq_length {α : Type} (f : α → Bool)
    (l : List α) (h : countActive f l = l.length) : ∀ b ∈ l, f b = true := by
  exact List.countP_eq_length.mp h

/-- C2: for every emitter (player, enemy, ally), firing preserves the pool
size, the number of active projectiles never exceeds the pool size (hence
never exceeds the emitter's MAX_BULLETS capacity), and a fire attempt when
every slot is active leaves the pool — in particular the active count —
unchanged, with no error (the functions are total). -/
theorem C2_pool_bound :
    (∀ (pool : List Bullet) (planePos : Vec3) (planeQuat : Quat)
        (planeVelocity : Vec3) (offset : ℚ),
      (fireBullet pool planePos planeQuat planeVelocity offset).length = pool.length ∧
      countActive (fun b => b.active) (fireBullet pool planePos planeQuat planeVelocity offset) ≤ pool.length ∧
      (countActive (fun b => b.active) pool = pool.length →
        fireBullet pool planePos planeQuat planeVelocity offset = pool)) ∧
    (∀ (pool : List EBullet) (enemyPos forward : Vec3) (speed : ℚ)
        (d : Difficulty) (r1 r2 : ℚ),
      (enemyFireBullet pool enemyPos forward speed d r1 r2).length = pool.length ∧
      countActive (fun b => b.active) (enemyFireBullet pool enemyPos forward speed d r1 r2) ≤ pool.length ∧
      (countActive (fun b => b.active) pool = pool.length →
        enemyFireBullet pool enemyPos forward speed d r1 r2 = pool)) ∧
    (∀ (pool : List EBullet) (allyPos forward : Vec3) (speed r1 r2 : ℚ),
      (allyFireBullet pool allyPos forward speed r1 r2).length = pool.length ∧
      countActive (fun b => b.active) (allyFireBullet pool allyPos forward speed r1 r2) ≤ pool.length ∧
      (countActive (fun b => b.active) pool = pool.length →
        allyFireBullet pool allyPos forward speed r1 r2 = pool)) := by
  refine ⟨?_, ?_, ?_⟩
  · intro pool planePos planeQuat planeVelocity offset
    refine ⟨armFirstFree_length _ _ pool, ?_, ?_⟩
    · calc countActive (fun b => b.active) (fireBullet pool planePos planeQuat planeVelocity offset)
          ≤ (fireBullet pool planePos planeQuat planeVelocity offset).length :=
            countActive_le_length _ _
        _ = pool.length := armFirstFree_length _ _ pool
    · intro hfull
      exact armFirstFree_of_allActive _ _ pool
        (allActive_of_countActive_eq_length _ pool hfull)
  · intro pool enemyPos forward speed d r1 r2
    refine ⟨armFirstFree_length _ _ pool, ?_, ?_⟩
    · calc countActive (fun b => b.active) (enemyFireBullet pool enemyPos forward speed d r1 r2)
          ≤ (enemyFireBullet pool enemyPos forward speed d r1 r2).length :=
            countActive_le_length _ _
        _ = pool.length := armFirstFree_length _ _ pool
    · intro hfull
      exact armFirstFree_of_allActive _ _ pool
        (allActive_of_countActive_eq_length _ pool hfull)
  · intro pool allyPos forward speed r1 r2
    refine ⟨armFirstFree_length _ _ pool, ?_, ?_⟩
    · calc countActive (fun b => b.active) (allyFireBullet pool allyPos forward speed r1 r2)
          ≤ (allyFireBullet pool allyPos forward speed r1 r2).length :=
            countActive_le_length _ _
        _ = pool.length := armFirstFree_length _ _ pool
    · intro hfull
      exact armFirstFree_of_allActive _ _ pool
        (allActive_of_countActive_eq_length _ pool hfull)

/-- Witness for C2: firing into a full single-slot pool returns it unchanged. -/
theorem C2_pool_bound_witness :
    fireBullet [{ active := true, position := ⟨0,0,0⟩, prevPosition := ⟨0,0,0⟩,
                  velocity := ⟨0,0,0⟩, life := 1 }] ⟨0,0,0⟩ ⟨0,0,0,1⟩ ⟨0,0,0⟩ (1/2)
      = [{ active := true, position := ⟨0,0,0⟩, prevPosition := ⟨0,0,0⟩,
           velocity := ⟨0,0,0⟩, life := 1 }] :=
  (C2_pool_bound.1 [{ active := true, position := ⟨0,0,0⟩, prevPosition := ⟨0,0,0⟩,
                      velocity := ⟨0,0,0⟩, life := 1 }] ⟨0,0,0⟩ ⟨0,0,0,1⟩ ⟨0,0,0⟩ (1/2)).2.2
    (by decide)

lemma updateSpeed_eq (throttle s dt : ℚ) :
    updateSpeed throttle s dt =
      max 0 (s + (throttle * MAX_SPEED - s) *
        (if throttle > 0 then (0.08:ℚ) else 0.03) * dt) := by
  unfold updateSpeed MIN_SPEED
  dsimp only
  rcases lt_or_le (s + (throttle * MAX_SPEED - s) *
      (if throttle > 0 then (0.08:ℚ) else 0.03) * dt) 0 with h | h
  · rw [if_pos h, max_eq_left h.le]
  · rw [if_neg (not_lt.mpr h), max_eq_right h]

/-- C5 counterexample: the claim says the acceleration constant used while
speed is increasing is smaller than the one used while it is decreasing.
In the code the constant is selected by `throttle > 0`, and the
throttle-positive constant (0.08) is the larger one: starting from equal
gaps of 43, a full-throttle increasing step closes 3.44 while a
zero-throttle decreasing step closes only 1.29, so the increasing step is
not smaller. -/
theorem C5_counterexample :
    0 < updateSpeed 1 0 1 - 0 ∧
    updateSpeed 0 MAX_SPEED 1 < MAX_SPEED ∧
    ¬ (updateSpeed 1 0 1 - 0 < MAX_SPEED - updateSpeed 0 MAX_SPEED 1) := by
  refine ⟨?_, ?_, ?_⟩ <;> norm_num [updateSpeed, MAX_SPEED, MIN_SPEED]

/-- C5 (amended): the speed update approaches `throttle × MAX_SPEED`
exponentially with two distinct acceleration constants selected by whether
the throttle is positive (0.08) or zero (0.03); the throttle-positive
constant is the larger one, so a full-throttle spin-up from rest closes its
gap at least as fast as a zero-throttle coast-down closes an equal gap; the
speed is never below 0. -/
theorem C5_amended_inertia :
    (∀ throttle s dt : ℚ, 0 ≤ updateSpeed throttle s dt) ∧
    (∀ s dt : ℚ, 0 ≤ s → s ≤ MAX_SPEED → 0 ≤ dt →
        updateSpeed 1 s dt = s + (MAX_SPEED - s) * (0.08:ℚ) * dt) ∧
    (∀ s dt : ℚ, 0 ≤ s → 0 ≤ dt → dt ≤ 1/10 →
        updateSpeed 0 s dt = s - s * (0.03:ℚ) * dt) ∧
    (∀ dt : ℚ, 0 ≤ dt → dt ≤ 1/10 →
        MAX_SPEED - updateSpeed 0 MAX_SPEED dt ≤ updateSpeed 1 0 dt) := by
  have hup : ∀ s dt : ℚ, 0 ≤ s → s ≤ MAX_SPEED → 0 ≤ dt →
      updateSpeed 1 s dt = s + (MAX_SPEED - s) * (0.08:ℚ) * dt := by
    intro s dt hs hsm hdt
    rw [updateSpeed_eq, if_pos (by norm_num : (1:ℚ) > 0), one_mul]
    apply max_eq_right
    have h1 : 0 ≤ (MAX_SPEED - s) * (0.08:ℚ) * dt :=
      mul_nonneg (mul_nonneg (by linarith) (by norm_num)) hdt
    linarith
  have hdown : ∀ s dt : ℚ, 0 ≤ s → 0 ≤ dt → dt ≤ 1/10 →
      updateSpeed 0 s dt = s - s * (0.03:ℚ) * dt := by
    intro s dt hs hdt hdt1
    rw [updateSpeed_eq, if_neg (by norm_num : ¬ ((0:ℚ) > 0))]
    have hval : s + (0 * MAX_SPEED - s) * (0.03:ℚ) * dt = s - s * (0.03:ℚ) * dt := by
      ring
    rw [hval]
    apply max_eq_right
    have h1 : s * dt ≤ s * (1/10) := mul_le_mul_of_nonneg_left hdt1 hs
    nlinarith
  refine ⟨?_, hup, hdown, ?_⟩
  · intro throttle s dt
    rw [updateSpeed_eq]
    exact le_max_left 0 _
  · intro dt hdt hdt1
    rw [hdown MAX_SPEED dt (by norm_num [MAX_SPEED]) hdt hdt1,
        hup 0 dt le_rfl (by norm_num [MAX_SPEED]) hdt]
    unfold MAX_SPEED
    nlinarith

/-- Witness for C5 (amended): at `dt = 0.1` the coast-down step from
MAX_SPEED closes no more of its gap than the spin-up step from rest. -/
theorem C5_amended_inertia_witness :
    MAX_SPEED - updateSpeed 0 MAX_SPEED (1/10) ≤ updateSpeed 1 0 (1/10) :=
  C5_amended_inertia.2.2.2 (1/10) (by norm_num) (by norm_num)

lemma runSpeed_cons (throttle s d : ℚ) (dts : List ℚ) :
    runSpeed throttle s (d :: dts) = runSpeed throttle (updateSpeed throttle s d) dts := rfl

lemma speed_step1_bounds (s d : ℚ) (hs : 0 ≤ s) (hsm : s < MAX_SPEED)
    (hd : 0 ≤ d) (hd1 : d ≤ 1/10) :
    s ≤ updateSpeed 1 s d ∧ updateSpeed 1 s d < MAX_SPEED := by
  rw [updateSpeed_eq, if_pos (by norm_num : (1:ℚ) > 0), one_mul]
  have h1 : 0 < MAX_SPEED - s := by linarith
  have h2 : 0 ≤ (MAX_SPEED - s) * (0.08:ℚ) * d :=
    mul_nonneg (mul_nonneg h1.le (by norm_num)) hd
  rw [max_eq_right (by linarith)]
  constructor
  · linarith
  · nlinarith

lemma speed_step0_bounds (s d : ℚ) (hs : 0 ≤ s) (hd : 0 ≤ d) (hd1 : d ≤ 1/10) :
    updateSpeed 0 s d ≤ s ∧ 0 ≤ updateSpeed 0 s d := by
  rw [updateSpeed_eq, if_neg (by norm_num : ¬ ((0:ℚ) > 0))]
  have hval : s + (0 * MAX_SPEED - s) * (0.03:ℚ) * d = s - s * (0.03:ℚ) * d := by ring
  rw [hval]
  have h1 : s * d ≤ s * (1/10) := mul_le_mul_of_nonneg_left hd1 hs
  have h2 : 0 ≤ s - s * (0.03:ℚ) * d := by nlinarith [mul_nonneg hs hd]
  rw [max_eq_right h2]
  constructor
  · nlinarith [mul_nonneg hs hd]
  · exact h2

lemma runSpeed1_bounds : ∀ (dts : List ℚ) (s0 : ℚ), 0 ≤ s0 → s0 < MAX_SPEED →
    (∀ d ∈ dts, 0 ≤ d ∧ d ≤ 1/10) →
    s0 ≤ runSpeed 1 s0 dts ∧ runSpeed 1 s0 dts < MAX_SPEED := by
  intro dts
  induction dts with
  | nil => intro s0 _ hsm _; exact ⟨le_refl s0, hsm⟩
  | cons d rest ih =>
      intro s0 hs hsm hb
      obtain ⟨hd, hd1⟩ := hb d (List.mem_cons_self d rest)
      have hstep := speed_step1_bounds s0 d hs hsm hd hd1
      have hrest := ih (updateSpeed 1 s0 d) (le_trans hs hstep.1) hstep.2
        (fun x hx => hb x (List.mem_cons_of_mem d hx))
      rw [runSpeed_cons]
      exact ⟨le_trans hstep.1 hrest.1, hrest.2⟩

lemma runSpeed0_bounds : ∀ (dts : List ℚ) (s0 : ℚ), 0 ≤ s0 →
    (∀ d ∈ dts, 0 ≤ d ∧ d ≤ 1/10) →
    runSpeed 0 s0 dts ≤ s0 ∧ 0 ≤ runSpeed 0 s0 dts := by
  intro dts
  induction dts with
  | nil => intro s0 hs _; exact ⟨le_refl s0, hs⟩
  | cons d rest ih =>
      intro s0 hs hb
      obtain ⟨hd, hd1⟩ := hb d (List.mem_cons_self d rest)
      have hstep := speed_step0_bounds s0 d hs hd hd1
      have hrest := ih (updateSpeed 0 s0 d) hstep.2
        (fun x hx => hb x (List.mem_cons_of_mem d hx))
      rw [runSpeed_cons]
      exact ⟨le_trans hrest.1 hstep.1, hrest.2⟩

/-- C7: with throttle held at 1, over any sequence of ticks whose deltas are
clamped to [0, 0.1], the speed is nondecreasing step to step, stays
nonnegative and never reaches MAX_SPEED (43); starting from rest this gives
a monotone climb strictly below 43.  With throttle 0 thereafter the speed is
nonincreasing and never negative. -/
theorem C7_throttle_envelope :
    (∀ (s0 : ℚ) (dts : List ℚ), 0 ≤ s0 → s0 < MAX_SPEED →
        (∀ d ∈ dts, 0 ≤ d ∧ d ≤ 1/10) →
        s0 ≤ runSpeed 1 s0 dts ∧ runSpeed 1 s0 dts < MAX_SPEED) ∧
    (∀ (s0 : ℚ) (dts : List ℚ), 0 ≤ s0 →
        (∀ d ∈ dts, 0 ≤ d ∧ d ≤ 1/10) →
        runSpeed 0 s0 dts ≤ s0 ∧ 0 ≤ runSpeed 0 s0 dts) :=
  ⟨fun s0 dts hs hsm hb => runSpeed1_bounds dts s0 hs hsm hb,
   fun s0 dts hs hb => runSpeed0_bounds dts s0 hs hb⟩

/-- Witness for C7: one full-throttle tick of 0.1 s from rest leaves the
speed in [0, 43). -/
theorem C7_throttle_envelope_witness :
    (0:ℚ) ≤ runSpeed 1 0 [1/10] ∧ runSpeed 1 0 [1/10] < MAX_SPEED :=
  C7_throttle_envelope.1 0 [1/10] le_rfl (by norm_num [MAX_SPEED])
    (by intro d hd; simp at hd; subst hd; norm_num)

/-- C9: triggering the player crash is idempotent.  The first trigger sets
the dead flag (and spawns the explosion); score and player health are
untouched; re-triggering — either through the GameCanvas handler directly or
through the Airplane-level `handleCrash` guard — is a no-op on the resulting
state, until an external reset. -/
theorem C9_crash_idempotent :
    ∀ (pos : Vec3) (s : PlayerState) (c : Bool),
      handlePlayerCrash pos (handlePlayerCrash pos s) = handlePlayerCrash pos s ∧
      (handlePlayerCrash pos s).score = s.score ∧
      (handlePlayerCrash pos s).playerHp = s.playerHp ∧
      (handlePlayerCrash pos s).playerDead = true ∧
      handlePlayerCrash pos { s with playerDead := true } = { s with playerDead := true } ∧
      handleCrash true pos s = (true, s) ∧
      (handleCrash c pos s).2.score = s.score ∧
      (handleCrash c pos s).2.playerHp = s.playerHp ∧
      handleCrash (handleCrash c pos s).1 pos (handleCrash c pos s).2 =
        handleCrash c pos s := by
  intro pos s c
  obtain ⟨pd, sc, php, ex⟩ := s
  cases pd <;> cases c <;>
    simp [handlePlayerCrash, handleCrash]

lemma handleEnemyHitGo_noop (id : ℚ) (hitPos : Option Vec3) (newEnemy : Enemy) :
    ∀ (l : List Enemy) (st : CombatState), (∀ e ∈ l, e.id ≠ id) →
      handleEnemyHitGo id hitPos newEnemy l st = (l, st) := by
  intro l
  induction l with
  | nil => intro st _; rfl
  | cons e rest ih =>
      intro st h
      have he : e.id ≠ id := h e (List.mem_cons_self e rest)
      have hrest : ∀ x ∈ rest, x.id ≠ id :=
        fun x hx => h x (List.mem_cons_of_mem e hx)
      simp only [handleEnemyHitGo, processEnemyHit, if_neg he]
      rw [ih st hrest]

/-- C10: routing an enemy-hit event with an id that matches no enemy in the
current squadron list leaves the whole combat state — enemy list, score,
position registry and transient effects — unchanged. -/
theorem C10_unknown_enemy_noop (id : ℚ) (hitPos : Option Vec3)
    (newEnemy : Enemy) (st : CombatState)
    (h : ∀ e ∈ st.enemies, e.id ≠ id) :
    handleEnemyHit id hitPos newEnemy st = st := by
  unfold handleEnemyHit
  rw [handleEnemyHitGo_noop id hitPos newEnemy st.enemies st h]

/-- Witness for C10: a hit event with id 2 against a squadron containing
only enemy 1 changes nothing. -/
theorem C10_unknown_enemy_noop_witness :
    handleEnemyHit 2 none { id := 99, position := ⟨0,0,0⟩, hp := 10, maxHp := 10 }
      { enemies := [{ id := 1, position := ⟨0,0,0⟩, hp := 10, maxHp := 10 }],
        score := 0, registry := [(1, ⟨0,0,0⟩)], hitSparks := [], explosions := [] } =
      { enemies := [{ id := 1, position := ⟨0,0,0⟩, hp := 10, maxHp := 10 }],
        score := 0, registry := [(1, ⟨0,0,0⟩)], hitSparks := [], explosions := [] } :=
  C10_unknown_enemy_noop 2 none _ _ (by decide)

lemma Vec3.lengthSq_nonneg (v : Vec3) : 0 ≤ v.lengthSq := by
  unfold Vec3.lengthSq Vec3.dot
  nlinarith [mul_self_nonneg v.x, mul_self_nonneg v.y, mul_self_nonneg v.z]

lemma Vec3.dot_eq_zero_of_lengthSq_eq_zero (d s : Vec3) (h : s.lengthSq = 0) :
    d.dot s = 0 := by
  unfold Vec3.lengthSq Vec3.dot at h
  have hx : s.x = 0 := by
    have h1 : s.x * s.x = 0 := by
      nlinarith [mul_self_nonneg s.x, mul_self_nonneg s.y, mul_self_nonneg s.z]
    exact mul_self_eq_zero.mp h1
  have hy : s.y = 0 := by
    have h1 : s.y * s.y = 0 := by
      nlinarith [mul_self_nonneg s.x, mul_self_nonneg s.y, mul_self_nonneg s.z]
    exact mul_self_eq_zero.mp h1
  have hz : s.z = 0 := by
    have h1 : s.z * s.z = 0 := by
      nlinarith [mul_self_nonneg s.x, mul_self_nonneg s.y, mul_self_nonneg s.z]
    exact mul_self_eq_zero.mp h1
  unfold Vec3.dot
  rw [hx, hy, hz]
  ring

lemma distSq_on_segment (bStart s p : Vec3) (t : ℚ) :
    (bStart.addScaled s t).distanceToSquared p =
      s.lengthSq * t^2 - 2 * ((p.sub bStart).dot s) * t + (p.sub bStart).lengthSq := by
  simp only [Vec3.addScaled, Vec3.add, Vec3.smul, Vec3.distanceToSquared, Vec3.sub,
    Vec3.lengthSq, Vec3.dot]
  ring

lemma quad_clamp_min (a b c t : ℚ) (ha : 0 ≤ a) (hb : a = 0 → b = 0)
    (h0 : 0 ≤ t) (h1 : t ≤ 1) :
    a * (if a > 0 then max 0 (min 1 (b / a)) else 0)^2
      - 2 * b * (if a > 0 then max 0 (min 1 (b / a)) else 0) + c
    ≤ a * t^2 - 2 * b * t + c := by
  by_cases hapos : a > 0
  · rw [if_pos hapos]
    rcases le_or_lt b 0 with hble | hbpos
    · have hdiv : b / a ≤ 0 := div_nonpos_of_nonpos_of_nonneg hble hapos.le
      rw [min_eq_right (le_trans hdiv zero_le_one), max_eq_left hdiv]
      nlinarith [mul_nonneg hapos.le (sq_nonneg t), mul_nonneg (neg_nonneg.mpr hble) h0]
    · rcases le_or_lt b a with hba | hab
      · have h0r : 0 ≤ b / a := (div_pos hbpos hapos).le
        have h1r : b / a ≤ 1 := (div_le_one hapos).mpr hba
        rw [min_eq_right h1r, max_eq_right h0r]
        have hexp : a * t^2 - 2*b*t + b^2/a = (a*t - b)^2 / a := by
          field_simp
          ring
        have hnn : 0 ≤ (a*t - b)^2 / a := div_nonneg (sq_nonneg _) hapos.le
        have h5 : 0 ≤ a * t^2 - 2*b*t + b^2/a := by rw [hexp]; exact hnn
        have hkey : a * (b/a)^2 - 2*b*(b/a) = -(b^2/a) := by
          field_simp
          ring
        linarith [hkey, h5]
      · have h1r : (1:ℚ) ≤ b / a := (one_le_div hapos).mpr hab.le
        rw [min_eq_left h1r, max_eq_right zero_le_one]
        have hkey : 0 ≤ (1 - t) * (2*b - a*(t+1)) :=
          mul_nonneg (by linarith)
            (by nlinarith [mul_nonneg (sub_nonneg.mpr h1) hapos.le])
        nlinarith [hkey]
  · rw [if_neg hapos]
    have ha0 : a = 0 := le_antisymm (not_lt.mp hapos) ha
    have hb0 : b = 0 := hb ha0
    rw [ha0, hb0]
    simp

lemma sweptHitTest_closest_min (bStart bEnd p : Vec3) (t : ℚ)
    (h0 : 0 ≤ t) (h1 : t ≤ 1) :
    ((sweptHitTest bStart bEnd p).2).distanceToSquared p ≤
      (bStart.addScaled (bEnd.sub bStart) t).distanceToSquared p := by
  show (bStart.addScaled (bEnd.sub bStart)
      (if (bEnd.sub bStart).lengthSq > 0
       then max 0 (min 1 (((p.sub bStart).dot (bEnd.sub bStart)) /
          (bEnd.sub bStart).lengthSq))
       else 0)).distanceToSquared p ≤ _
  rw [distSq_on_segment, distSq_on_segment]
  exact quad_clamp_min _ _ _ t (Vec3.lengthSq_nonneg _)
    (fun h => Vec3.dot_eq_zero_of_lengthSq_eq_zero _ _ h) h0 h1

lemma sweptHitTest_fst (bStart bEnd p : Vec3) :
    (sweptHitTest bStart bEnd p).1 =
      decide (((sweptHitTest bStart bEnd p).2).distanceToSquared p < 12) := rfl

lemma sweptHitTest_true_iff (bStart bEnd p : Vec3) :
    (sweptHitTest bStart bEnd p).1 = true ↔ hitsSegment bStart bEnd p := by
  constructor
  · intro h
    rw [sweptHitTest_fst] at h
    have hlt := of_decide_eq_true h
    refine ⟨(if (bEnd.sub bStart).lengthSq > 0
        then max 0 (min 1 (((p.sub bStart).dot (bEnd.sub bStart)) /
           (bEnd.sub bStart).lengthSq))
        else 0), ?_, ?_, ?_⟩
    · split
      · exact le_max_left 0 _
      · exact le_refl 0
    · split
      · exact max_le zero_le_one (min_le_left 1 _)
      · exact zero_le_one
    · exact hlt
  · rintro ⟨t, h0, h1, hlt⟩
    rw [sweptHitTest_fst]
    exact decide_eq_true (lt_of_le_of_lt (sweptHitTest_closest_min bStart bEnd p t h0 h1) hlt)

lemma scanEnemies_spec (bStart bEnd : Vec3) :
    ∀ targets : List (ℚ × Option Vec3),
      (∃ ip ∈ targets, ∃ p, ip.2 = some p ∧ hitsSegment bStart bEnd p) →
      ∃ j cp, scanEnemies bStart bEnd targets = some (j, cp) ∧
        IsFirstSweptHit bStart bEnd targets j := by
  intro targets
  induction targets with
  | nil =>
      rintro ⟨ip, hmem, _⟩
      exact absurd hmem (List.not_mem_nil ip)
  | cons hd rest ih =>
      rintro ⟨ip, hmem, p, hip, hhit⟩
      obtain ⟨i, op⟩ := hd
      cases op with
      | none =>
          have hmem2 : ip ∈ rest := by
            rcases List.mem_cons.mp hmem with heq | h
            · rw [heq] at hip
              simp at hip
            · exact h
          obtain ⟨j, cp, hscan, hfirst⟩ := ih ⟨ip, hmem2, p, hip, hhit⟩
          refine ⟨j, cp, ?_, ?_⟩
          · simpa [scanEnemies] using hscan
          · simpa [IsFirstSweptHit] using hfirst
      | some q =>
          by_cases hq : (sweptHitTest bStart bEnd q).1 = true
          · refine ⟨i, (sweptHitTest bStart bEnd q).2, ?_, ?_⟩
            · simp [scanEnemies, hq]
            · exact Or.inl ⟨(sweptHitTest_true_iff bStart bEnd q).mp hq, rfl⟩
          · have hnq : ¬ hitsSegment bStart bEnd q :=
              fun hcon => hq ((sweptHitTest_true_iff bStart bEnd q).mpr hcon)
            have hmem2 : ip ∈ rest := by
              rcases List.mem_cons.mp hmem with heq | h
              · rw [heq] at hip
                simp at hip
                rw [hip] at hnq
                exact absurd hhit hnq
              · exact h
            obtain ⟨j, cp, hscan, hfirst⟩ := ih ⟨ip, hmem2, p, hip, hhit⟩
            refine ⟨j, cp, ?_, Or.inr ⟨hnq, hfirst⟩⟩
            simpa [scanEnemies, hq] using hscan

/-- C1: swept collision correctness for the player's projectile pool.  If an
active projectile survives expiry and the terrain check for this tick, and
some point of the segment between its previous position (pre-tick) and its
current position (post-tick) comes within the squared-distance threshold 12
of a registered target, then the tick deactivates the projectile and emits
exactly one hit event, for the first matching target in iteration order.
No bound on `Δposition = velocity·dt` is assumed, so the per-tick
displacement may exceed the hit radius (e.g. 50 units per tick) without
tunneling. -/
theorem C1_swept_collision (getH : ℚ → ℚ → ℚ) (targets : List (ℚ × Option Vec3))
    (dt : ℚ) (b : Bullet)
    (hact : b.active = true)
    (hlife : 0 < b.life - dt)
    (hterr : ¬ ((b.position.addScaled b.velocity dt).y <
        getH (b.position.addScaled b.velocity dt).x (b.position.addScaled b.velocity dt).z))
    (hhit : ∃ ip ∈ targets, ∃ p, ip.2 = some p ∧
        hitsSegment b.position (b.position.addScaled b.velocity dt) p) :
    (playerBulletStep getH targets dt b).1.active = false ∧
    ∃ j cp, (playerBulletStep getH targets dt b).2 = some (j, cp) ∧
      IsFirstSweptHit b.position (b.position.addScaled b.velocity dt) targets j := by
  obtain ⟨j, cp, hscan, hfirst⟩ := scanEnemies_spec _ _ targets hhit
  have hguard : ¬ (b.life - dt ≤ 0 ∨ (b.position.addScaled b.velocity dt).y <
      getH (b.position.addScaled b.velocity dt).x (b.position.addScaled b.velocity dt).z) := by
    push_neg
    exact ⟨by linarith, not_lt.mp hterr⟩
  simp only [playerBulletStep]
  rw [if_neg (by simp [hact]), if_neg hguard, hscan]
  exact ⟨rfl, j, cp, rfl, hfirst⟩

/-- Witness for C1: a projectile moving 50 units in one tick (velocity 500,
dt = 0.1) hits a target lying 1 unit off the middle of the swept segment. -/
theorem C1_swept_collision_witness :
    (playerBulletStep (fun _ _ => 0) [(7, some ⟨0,11,-25⟩)] (1/10)
      { active := true, position := ⟨0,10,0⟩, prevPosition := ⟨0,10,0⟩,
        velocity := ⟨0,0,-500⟩, life := 2 }).1.active = false :=
  (C1_swept_collision (fun _ _ => 0) [(7, some ⟨0,11,-25⟩)] (1/10)
      { active := true, position := ⟨0,10,0⟩, prevPosition := ⟨0,10,0⟩,
        velocity := ⟨0,0,-500⟩, life := 2 } rfl (by norm_num)
      (by norm_num [Vec3.addScaled, Vec3.add, Vec3.smul])
      ⟨(7, some ⟨0,11,-25⟩), by simp, ⟨0,11,-25⟩, rfl,
        ⟨1/2, by norm_num, by norm_num,
          by norm_num [Vec3.addScaled, Vec3.add, Vec3.smul, Vec3.sub,
            Vec3.distanceToSquared, Vec3.lengthSq, Vec3.dot]⟩⟩).1

/-- C3 counterexample: the three emitters do not share one hit radius.  At
squared distance 14 the ally point test (threshold 16) hits while the
player's swept test (threshold 12) does not, and at squared distance 16 the
ally test misses while the enemy-bullet-vs-player test (distance 5,
i.e. squared 25) hits. -/
theorem C3_counterexample :
    ((sweptHitTest ⟨0,0,0⟩ ⟨0,0,0⟩ ⟨2,3,1⟩).1 = false ∧
      allyBulletHitCheck ⟨0,0,0⟩ ⟨2,3,1⟩ = true) ∧
    (allyBulletHitCheck ⟨0,0,0⟩ ⟨0,4,0⟩ = false ∧
      enemyBulletHitCheck ⟨0,0,0⟩ ⟨0,4,0⟩ = true) := by
  refine ⟨⟨?_, ?_⟩, ⟨?_, ?_⟩⟩ <;>
    norm_num [sweptHitTest, allyBulletHitCheck, enemyBulletHitCheck,
      Vec3.sub, Vec3.lengthSq, Vec3.dot, Vec3.addScaled, Vec3.add, Vec3.smul,
      Vec3.distanceToSquared]

/-- C3 (amended): each emitter's hit test is a fixed-radius test, but the
radii differ: the player's swept test fires exactly when the segment comes
within squared distance 12 of the target, the ally point test uses squared
threshold 16, and the enemy-vs-player point test uses distance 5 (squared
25); the three thresholds are pairwise distinct. -/
theorem C3_amended_radii :
    (∀ bStart bEnd p : Vec3,
        (sweptHitTest bStart bEnd p).1 = true ↔ hitsSegment bStart bEnd p) ∧
    (∀ a b : Vec3, allyBulletHitCheck a b = true ↔ a.distanceToSquared b < 16) ∧
    (∀ a b : Vec3, enemyBulletHitCheck a b = true ↔ a.distanceToSquared b < 25) ∧
    (12:ℚ) < 16 ∧ (16:ℚ) < 25 := by
  refine ⟨sweptHitTest_true_iff, ?_, ?_, by norm_num, by norm_num⟩
  · intro a b
    simp [allyBulletHitCheck]
  · intro a b
    simp [enemyBulletHitCheck]

/-- Witness for C3 (amended): a point at squared distance 9 passes the ally
test. -/
theorem C3_amended_radii_witness :
    allyBulletHitCheck ⟨0,0,0⟩ ⟨0,3,0⟩ = true :=
  (C3_amended_radii.2.1 ⟨0,0,0⟩ ⟨0,3,0⟩).mpr
    (by norm_num [Vec3.distanceToSquared, Vec3.sub, Vec3.lengthSq, Vec3.dot])

/-- C4 counterexample: inside the runway corridor the consumers disagree.
At (0,0) the flight model's `getTerrainHeight` returns 0 (corridor
flattening), while the tree-placement computation — which has no corridor
test — returns 150. -/
theorem C4_counterexample : treePlacementHeight 0 0 ≠ getTerrainHeight 0 0 := by
  have h1 : getTerrainHeight 0 0 = 0 := by
    unfold getTerrainHeight
    rw [if_pos (by norm_num)]
  have h2 : treePlacementHeight 0 0 = 150 := by
    unfold treePlacementHeight
    norm_num
  rw [h1, h2]
  norm_num

/-- C4 (amended): the consumers do not all compute the same elevation.
The mesh rotation `[-Math.PI/2, 0, 0]` mirrors the loop's local y axis into
world -z, so the mesh's ground-coordinate height equals the flight model's
height mirrored in z; because the corridor band (-1700, 700) is not
symmetric in z, the two disagree on the mirrored part of the band — at
ground point (0, -1600), inside the flight model's corridor, the flight
model returns 0 while the mesh places terrain of height at least one
terrace step (15).  The tree-placement height equals the flight model's
height at every point outside the flight model's corridor and differs
inside it, where the corridor flattening is omitted (see the
counterexample). -/
theorem C4_amended_consumers :
    (∀ x z : ℝ, terrainMeshGroundHeight x z = getTerrainHeight x (-z)) ∧
    getTerrainHeight 0 (-1600) < terrainMeshGroundHeight 0 (-1600) ∧
    (∀ x z : ℝ, ¬ inRunwayCorridor x z →
      treePlacementHeight x z = getTerrainHeight x z) := by
  refine ⟨fun x z => rfl, ?_, ?_⟩
  · have hflight : getTerrainHeight 0 (-1600) = 0 := by
      unfold getTerrainHeight
      rw [if_pos (by norm_num)]
    have hcos : (0.1:ℝ) < Real.cos 5 := by
      have h1 : Real.cos (2 * Real.pi - 5) = Real.cos 5 := Real.cos_two_pi_sub 5
      have h2 : 1 - (2 * Real.pi - 5)^2 / 2 ≤ Real.cos (2 * Real.pi - 5) :=
        Real.one_sub_sq_div_two_le_cos
      have hpi1 : Real.pi < 3.1416 := Real.pi_lt_d4
      have hpi2 : 3.1415 < Real.pi := Real.pi_gt_d4
      have ht1 : 2 * Real.pi - 5 < 1.2832 := by linarith
      have ht0 : 0 < 2 * Real.pi - 5 := by linarith
      have hsq : (2 * Real.pi - 5)^2 < 1.2832^2 := by nlinarith
      nlinarith [h1, h2, hsq]
    have hmesh : (15:ℝ) ≤ terrainMeshGroundHeight 0 (-1600) := by
      unfold terrainMeshGroundHeight
      have harg : (-(-1600:ℝ)) = 1600 := by norm_num
      rw [harg]
      unfold terrainMeshVertexHeight
      rw [if_neg (by norm_num)]
      have h5 : ((1600:ℝ) / (400 * 0.8)) = 5 := by norm_num
      have h0 : Real.sin ((0:ℝ) / 400) = 0 := by norm_num
      rw [h5, h0]
      have hmax : max 0 ((0 + Real.cos 5) * 150) = Real.cos 5 * 150 := by
        rw [zero_add]
        exact max_eq_right (by nlinarith)
      rw [hmax]
      have hfl : (1:ℤ) ≤ ⌊Real.cos 5 * 150 / 15⌋ := by
        apply Int.le_floor.mpr
        push_cast
        nlinarith
      calc (15:ℝ) = ((1:ℤ):ℝ) * 15 := by norm_num
        _ ≤ ((⌊Real.cos 5 * 150 / 15⌋ : ℤ) : ℝ) * 15 := by
            apply mul_le_mul_of_nonneg_right _ (by norm_num)
            exact_mod_cast hfl
    rw [hflight]
    linarith
  · intro x z h
    unfold inRunwayCorridor at h
    unfold getTerrainHeight treePlacementHeight
    rw [if_neg h]

/-- Witness for C4 (amended): at (300, 0), outside the corridor, the tree
height equals the flight model's height. -/
theorem C4_amended_consumers_witness :
    treePlacementHeight 300 0 = getTerrainHeight 300 0 :=
  C4_amended_consumers.2.2 300 0 (by norm_num [inRunwayCorridor])

/-- C8: the terrain height function returns 0 at every point inside the
runway corridor, and outside the corridor its value is a nonnegative
integer multiple of the terrace step 15. -/
theorem C8_terrain_quantization :
    ∀ x z : ℝ,
      (inRunwayCorridor x z → getTerrainHeight x z = 0) ∧
      (¬ inRunwayCorridor x z →
        ∃ k : ℕ, getTerrainHeight x z = (k : ℝ) * 15) := by
  intro x z
  constructor
  · intro h
    unfold inRunwayCorridor at h
    unfold getTerrainHeight
    rw [if_pos h]
  · intro h
    unfold inRunwayCorridor at h
    unfold getTerrainHeight
    rw [if_neg h]
    have hnn : (0:ℝ) ≤ max 0 ((Real.sin (x / 400) + Real.cos (z / (400 * 0.8))) * 150) / 15 :=
      div_nonneg (le_max_left 0 _) (by norm_num)
    have hfl : 0 ≤ ⌊max 0 ((Real.sin (x / 400) + Real.cos (z / (400 * 0.8))) * 150) / 15⌋ :=
      Int.floor_nonneg.mpr hnn
    refine ⟨(⌊max 0 ((Real.sin (x / 400) + Real.cos (z / (400 * 0.8))) * 150) / 15⌋).toNat, ?_⟩
    have hcast :
        (((⌊max 0 ((Real.sin (x / 400) + Real.cos (z / (400 * 0.8))) * 150) / 15⌋).toNat : ℕ) : ℝ)
          = ((⌊max 0 ((Real.sin (x / 400) + Real.cos (z / (400 * 0.8))) * 150) / 15⌋ : ℤ) : ℝ) := by
      exact_mod_cast Int.toNat_of_nonneg hfl
    rw [hcast]

/-- Witness for C8: the corridor point (0, 0) has height 0. -/
theorem C8_terrain_quantization_witness : getTerrainHeight 0 0 = 0 :=
  (C8_terrain_quantization 0 0).1 (by norm_num [inRunwayCorridor])

/-- C6 counterexample: enemy projectiles are not deactivated on ground
impact.  An active enemy bullet resting at y = -5 — below the terrain
height 0 at its (x,z) = (0,0) — with remaining life and far from the
player stays active after the advance step. -/
theorem C6_counterexample :
    (enemyBulletStep ⟨1000,0,0⟩ (1/10)
        { active := true, position := ⟨0,-5,0⟩, velocity := ⟨0,0,0⟩,
          life := 3/2 }).1.active = true ∧
    (((enemyBulletStep ⟨1000,0,0⟩ (1/10)
        { active := true, position := ⟨0,-5,0⟩, velocity := ⟨0,0,0⟩,
          life := 3/2 }).1.position.y : ℝ) <
      getTerrainHeight
        ((enemyBulletStep ⟨1000,0,0⟩ (1/10)
          { active := true, position := ⟨0,-5,0⟩, velocity := ⟨0,0,0⟩,
            life := 3/2 }).1.position.x : ℝ)
        ((enemyBulletStep ⟨1000,0,0⟩ (1/10)
          { active := true, position := ⟨0,-5,0⟩, velocity := ⟨0,0,0⟩,
            life := 3/2 }).1.position.z : ℝ)) := by
  have hred : (enemyBulletStep ⟨1000,0,0⟩ (1/10)
      { active := true, position := ⟨0,-5,0⟩, velocity := ⟨0,0,0⟩,
        life := 3/2 }).1 =
      { active := true, position := ⟨0,-5,0⟩, velocity := ⟨0,0,0⟩,
        life := 7/5 } := by
    norm_num [enemyBulletStep, Vec3.addScaled, Vec3.add, Vec3.smul,
      Vec3.distanceToSquared, Vec3.sub, Vec3.lengthSq, Vec3.dot]
  rw [hred]
  refine ⟨rfl, ?_⟩
  have hterr : getTerrainHeight ((0:ℚ) : ℝ) ((0:ℚ) : ℝ) = 0 := by
    unfold getTerrainHeight
    rw [if_pos (by norm_num)]
  rw [hterr]
  norm_num

/-- C6 (amended): the player's projectile advance deactivates on expiry
(life ≤ 0) or when the new position falls below the terrain height, but the
enemy and ally projectile advances have no terrain check: starting active,
an enemy bullet remains active exactly when its decremented life is
positive and it did not hit the player, and an ally bullet remains active
exactly when its decremented life is positive and its enemy scan found no
hit — independent of any terrain height. -/
theorem C6_amended_expiry :
    (∀ (getH : ℚ → ℚ → ℚ) (targets : List (ℚ × Option Vec3)) (dt : ℚ) (b : Bullet),
        b.active = true →
        (b.life - dt ≤ 0 ∨ (b.position.addScaled b.velocity dt).y <
            getH (b.position.addScaled b.velocity dt).x
              (b.position.addScaled b.velocity dt).z) →
        (playerBulletStep getH targets dt b).1.active = false) ∧
    (∀ (playerPos : Vec3) (dt : ℚ) (b : EBullet), b.active = true →
        ((enemyBulletStep playerPos dt b).1.active = true ↔
          (0 < b.life - dt ∧
            ¬ (b.position.addScaled b.velocity dt).distanceToSquared playerPos < 25))) ∧
    (∀ (targets : List (ℚ × Option Vec3)) (dt : ℚ) (b : EBullet), b.active = true →
        ((allyBulletStep targets dt b).1.active = true ↔
          (0 < b.life - dt ∧
            (allyHitScan (b.position.addScaled b.velocity dt) targets).1 = false))) := by
  refine ⟨?_, ?_, ?_⟩
  · intro getH targets dt b hact hguard
    simp only [playerBulletStep]
    rw [if_neg (by simp [hact]), if_pos hguard]
  · intro playerPos dt b hact
    simp only [enemyBulletStep, hact]
    rw [if_neg (by simp)]
    by_cases h1 : (b.position.addScaled b.velocity dt).distanceToSquared playerPos < 25
    · by_cases h2 : b.life - dt ≤ 0 <;>
        simp [h1, h2]
    · by_cases h2 : b.life - dt ≤ 0
      · simp [h1, h2]
        linarith
      · simp [h1, h2, hact]
        linarith [lt_of_not_le h2]
  · intro targets dt b hact
    simp only [allyBulletStep]
    rw [if_neg (by simp [hact])]
    by_cases h1 : (allyHitScan (b.position.addScaled b.velocity dt) targets).1 = true
    · by_cases h2 : b.life - dt ≤ 0 <;>
        simp [h1, h2]
    · by_cases h2 : b.life - dt ≤ 0
      · simp [h1, h2]
        linarith
      · simp [h1, h2, hact]
        linarith [lt_of_not_le h2]

/-- Witness for C6 (amended): an expired player bullet (life 0.5, dt 1) is
deactivated by the advance step. -/
theorem C6_amended_expiry_witness :
    (playerBulletStep (fun _ _ => 0) [] 1
      { active := true, position := ⟨0,10,0⟩, prevPosition := ⟨0,10,0⟩,
        velocity := ⟨0,0,0⟩, life := 1/2 }).1.active = false :=
  C6_amended_expiry.1 (fun _ _ => 0) [] 1
    { active := true, position := ⟨0,10,0⟩, prevPosition := ⟨0,10,0⟩,
      velocity := ⟨0,0,0⟩, life := 1/2 } rfl (Or.inl (by norm_num))
